import Mathlib

/-!
Verification of the Financial-zen repository core: the record store
(`src/lib/store.ts`), the service layer (`src/unnamed/part_000`), the
extraction gateway (`src/lib/ai.ts`) and the magic-input debounce effect
of the React `App` component (in `src/Plan.md`).

Monetary amounts (JS `number`) are modelled as `ℚ`; ISO date strings stay
strings, and the platform's date parsing (`new Date(s).getTime()`) is an
explicit parameter `parseDate : String → Int`.  JS `x || d` on strings is
`strOr`; `undefined` is `Option.none`.
-/

namespace FinZen

/-- `preferences` field of `User` (src/unnamed types). -/
structure UserPreferences where
  currency : String
  theme : String
deriving Repr, DecidableEq

/-- `User` record (src/unnamed types). -/
structure User where
  id : String
  email : String
  name : String
  preferences : UserPreferences
  createdAt : String
deriving Repr, DecidableEq

/-- Optional AI provenance metadata attached to a transaction. -/
structure AiMetadata where
  confidence : ℚ
  originalPrompt : String
  modelUsed : String
deriving Repr, DecidableEq

/-- `Transaction` record (src/unnamed types). -/
structure Transaction where
  id : String
  userId : String
  amount : ℚ
  currency : String
  date : String
  category : String
  merchant : String
  description : String
  tags : List String
  isRecurring : Bool
  aiMetadata : Option AiMetadata
deriving Repr, DecidableEq

/-- `Budget` record (src/unnamed types). -/
structure Budget where
  id : String
  userId : String
  category : String
  limitAmount : ℚ
  period : String
  spent : ℚ
deriving Repr, DecidableEq

/-- In-memory state of `MockDatabase` (src/lib/store.ts): the three
private collections. -/
structure DB where
  users : List User
  transactions : List Transaction
  budgets : List Budget
deriving Repr, DecidableEq

namespace MockDatabase

/-- `MockDatabase.getUser`: `this.users.find(u => u.id === id)`. -/
def getUser (db : DB) (id : String) : Option User :=
  db.users.find? (fun u => u.id == id)

/-- `MockDatabase.createUser`: pushes the user. -/
def createUser (db : DB) (user : User) : DB × User :=
  ({ db with users := db.users ++ [user] }, user)

/-- The filter pipeline of `MockDatabase.getTransactions`: owner filter,
then the two optional filters, each guarded by JS truthiness
(`if (filters?.category)`, `if (filters?.startDate)`: an absent or empty
string leaves the data untouched). -/
def txFilterPipeline (parseDate : String → Int) (userId : String)
    (fcat fstart : Option String) (txs : List Transaction) : List Transaction :=
  let data := txs.filter (fun t => t.userId == userId)
  let data := match fcat with
    | some c => if c = "" then data else data.filter (fun t => t.category == c)
    | none => data
  match fstart with
    | some s => if s = "" then data
                else data.filter (fun t => decide (parseDate s ≤ parseDate t.date))
    | none => data

/-- The final `data.sort((a, b) => new Date(b.date).getTime() - new Date(a.date).getTime())`:
a stable sort, descending by parsed date. -/
def sortByDateDesc (parseDate : String → Int) (txs : List Transaction) : List Transaction :=
  txs.mergeSort (fun a b => decide (parseDate b.date ≤ parseDate a.date))

/-- `MockDatabase.getTransactions`. -/
def getTransactions (parseDate : String → Int) (db : DB) (userId : String)
    (fcat fstart : Option String) : List Transaction :=
  sortByDateDesc parseDate (txFilterPipeline parseDate userId fcat fstart db.transactions)

/-- `MockDatabase.createTransaction`: `this.transactions.push(tx)` then
returns `tx`. -/
def createTransaction (db : DB) (tx : Transaction) : DB × Transaction :=
  ({ db with transactions := db.transactions ++ [tx] }, tx)

/-- `MockDatabase.deleteTransaction`:
`this.transactions = this.transactions.filter(t => !(t.id === id && t.userId === userId))`. -/
def deleteTransaction (db : DB) (id userId : String) : DB :=
  { db with transactions :=
      db.transactions.filter (fun t => !(t.id == id && t.userId == userId)) }

/-- `MockDatabase.getBudgets`: filters the user's budgets and recomputes
`spent` from `getTransactions(userId)`. -/
def getBudgets (parseDate : String → Int) (db : DB) (userId : String) : List Budget :=
  let userBudgets := db.budgets.filter (fun b => b.userId == userId)
  let txs := getTransactions parseDate db userId none none
  userBudgets.map (fun b =>
    let spent := (txs.filter (fun t => t.category == b.category)).foldl
      (fun sum t => sum + t.amount) 0
    { b with spent := spent })

end MockDatabase

/-- The mock session of `AuthService` (src/unnamed/part_000). -/
def currentUserId : String := "guest_user"

/-- The standardized `ApiResponse<T>` of the service layer. -/
structure ApiResponse (α : Type) where
  data : Option α
  error : Option String
  status : Nat
deriving Repr, DecidableEq

/-- `Partial<Transaction>`: every field optional (JS `undefined` is `none`). -/
structure PartialTransaction where
  id : Option String := none
  userId : Option String := none
  amount : Option ℚ := none
  currency : Option String := none
  date : Option String := none
  category : Option String := none
  merchant : Option String := none
  description : Option String := none
  tags : Option (List String) := none
  isRecurring : Option Bool := none
  aiMetadata : Option AiMetadata := none
deriving Repr, DecidableEq

/-- JS `x || d` on an optional string: an absent or empty string falls
back to the default. -/
def strOr (x : Option String) (d : String) : String :=
  match x with
  | none => d
  | some s => if s = "" then d else s

/-- The `newTx` record built inside `TransactionService.create`:
each field is `payload.f || default`; `freshId` stands for the
`Math.random()`-generated id and `nowIso` for `new Date().toISOString()`. -/
def mkNewTx (user : User) (freshId nowIso : String) (payload : PartialTransaction) :
    Transaction :=
  { id := freshId
    userId := user.id
    amount := payload.amount.getD 0
    currency := strOr payload.currency user.preferences.currency
    date := strOr payload.date nowIso
    category := strOr payload.category "Uncategorized"
    merchant := strOr payload.merchant "Unknown"
    description := strOr payload.description ""
    tags := payload.tags.getD []
    isRecurring := payload.isRecurring.getD false
    aiMetadata := payload.aiMetadata }

namespace TransactionService

/-- `TransactionService.create`: resolves the session user (a missing
user makes `getSession` throw, caught as a 500), builds `newTx` with
per-field defaults, delegates to `db.createTransaction` and answers 201.
Returns the response together with the updated store. -/
def create (db : DB) (freshId nowIso : String) (payload : PartialTransaction) :
    ApiResponse Transaction × DB :=
  match MockDatabase.getUser db currentUserId with
  | none => ({ data := none, error := some "Creation failed", status := 500 }, db)
  | some user =>
    let newTx := mkNewTx user freshId nowIso payload
    let res := MockDatabase.createTransaction db newTx
    ({ data := some res.2, error := none, status := 201 }, res.1)

/-- `TransactionService.delete`: delegates to
`db.deleteTransaction(id, AuthService.currentUserId)` and answers 200. -/
def del (db : DB) (id : String) : ApiResponse Unit × DB :=
  ({ data := none, error := none, status := 200 }, MockDatabase.deleteTransaction db id currentUserId)

end TransactionService

/-- The fixed default budget set of `BudgetService.getAll`. -/
def defaultBudgets : List Budget :=
  [ { id := "b1", userId := currentUserId, category := "Food",
      limitAmount := 500, period := "monthly", spent := 0 },
    { id := "b2", userId := currentUserId, category := "Transport",
      limitAmount := 200, period := "monthly", spent := 0 },
    { id := "b3", userId := currentUserId, category := "Entertainment",
      limitAmount := 300, period := "monthly", spent := 0 } ]

namespace BudgetService

/-- `BudgetService.getAll`: reads the recomputed budgets; when the user
has none, answers the fixed default set instead. -/
def getAll (parseDate : String → Int) (db : DB) : ApiResponse (List Budget) :=
  let budgets := MockDatabase.getBudgets parseDate db currentUserId
  if budgets = [] then { data := some defaultBudgets, error := none, status := 200 }
  else { data := some budgets, error := none, status := 200 }

end BudgetService

/-- One entry of `topCategories` (src/unnamed types `CategorySpending`). -/
structure CategorySpending where
  category : String
  amount : ℚ
  percentage : ℚ
deriving Repr, DecidableEq

/-- The entry built for one `catMap` pair inside `getDashboardSummary`:
`percentage = totalSpent > 0 ? (amount / totalSpent) * 100 : 0`. -/
def catEntry (totalSpent : ℚ) (e : String × ℚ) : CategorySpending :=
  { category := e.1, amount := e.2,
    percentage := if 0 < totalSpent then e.2 / totalSpent * 100 else 0 }

/-- One step of building `catMap`:
`catMap[t.category] = (catMap[t.category] || 0) + t.amount`, on an
association list kept in first-occurrence key order (JS object string
keys preserve insertion order). -/
def accumCat : List (String × ℚ) → String → ℚ → List (String × ℚ)
  | [], c, a => [(c, a)]
  | (c', v) :: rest, c, a =>
      if c' = c then (c', v + a) :: rest else (c', v) :: accumCat rest c a

/-- The `catMap` accumulation loop of `AnalyticsService.getDashboardSummary`. -/
def catMap (txs : List Transaction) : List (String × ℚ) :=
  txs.foldl (fun m t => accumCat m t.category t.amount) []

/-- `totalSpent = txs.reduce((sum, t) => sum + t.amount, 0)`. -/
def totalSpentOf (txs : List Transaction) : ℚ :=
  txs.foldl (fun sum t => sum + t.amount) 0

namespace AnalyticsService

/-- The `topCategories` computation of
`AnalyticsService.getDashboardSummary`: map the category sums to
entries with `percentage = totalSpent > 0 ? amount / totalSpent * 100 : 0`,
then `.sort((a, b) => b.amount - a.amount)` (stable, descending). -/
def topCategoriesOf (txs : List Transaction) : List CategorySpending :=
  let totalSpent := totalSpentOf txs
  ((catMap txs).map (catEntry totalSpent))
    |>.mergeSort (fun a b => decide (b.amount ≤ a.amount))

end AnalyticsService

/-! ## Extraction gateway (src/lib/ai.ts)

The remote model and the platform JSON parser are explicit parameters:
a transported response is `Option String` (`response.text` may be
`undefined`), a transport failure is the `.error` case of an
`Except`-valued oracle, and `JSON.parse` is `parseJson`, whose `.error`
case models the exception it throws on invalid JSON. -/

/-- `response.text || "{}"`. -/
def responseTextOrDefault (respText : Option String) : String :=
  match respText with
  | none => "{}"
  | some s => if s = "" then "{}" else s

/-- `parseTransactionWithAI`, from the point where the transported
response is in hand: `JSON.parse` in a try/catch that leaves `data`
empty on failure; always returns `{ transaction, rawResponse }`
(modelled as `.ok`: the catch swallows the parse exception). -/
def parseTransactionWithAI (parseJson : String → Except String PartialTransaction)
    (respText : Option String) : Except String (PartialTransaction × String) :=
  let text := responseTextOrDefault respText
  let data := match parseJson text with
    | .ok d => d
    | .error _ => {}
  .ok (data, text)

/-- `scanReceiptWithAI`, from the transported response:
`try { return JSON.parse(response.text || "{}") } catch { return {} }`. -/
def scanReceiptWithAI (parseJson : String → Except String PartialTransaction)
    (respText : Option String) : Except String PartialTransaction :=
  match parseJson (responseTextOrDefault respText) with
  | .ok d => .ok d
  | .error _ => .ok {}

/-- The `responseSchema` sent by a gateway call: property names in
declaration order, and the `required` name list. -/
structure ResponseSchema where
  properties : List String
  required : List String
deriving Repr, DecidableEq

/-- The `responseSchema` of `parseTransactionWithAI`. -/
def parseTextSchema : ResponseSchema :=
  { properties := ["amount", "currency", "merchant", "category", "date",
                   "description", "isRecurring", "tags"],
    required := ["amount", "currency", "category", "date"] }

/-- The `responseSchema` of `scanReceiptWithAI`. -/
def scanReceiptSchema : ResponseSchema :=
  { properties := ["amount", "currency", "merchant", "category", "date"],
    required := ["amount", "currency", "merchant", "date"] }

/-- The fixed fallback string of `askFinancialCoach`. -/
def coachFallback : String := "Synchronicity lost. Please repeat the query."

/-- The `contents` string of `askFinancialCoach`:
`` `Transaction History: ${context}\n\nUser Inquiry: ${query}` `` with
`context = JSON.stringify(history.slice(0, 50))` (`stringify` is the
platform serializer, an explicit parameter). -/
def buildCoachContents (stringify : List Transaction → String)
    (history : List Transaction) (query : String) : String :=
  "Transaction History: " ++ stringify (history.take 50) ++ "\n\nUser Inquiry: " ++ query

/-- `askFinancialCoach`: one un-guarded `generateContent` call (the
`model` oracle), then `response.text || coachFallback`.  There is no
try/catch, so a transport failure propagates as `.error`. -/
def askFinancialCoach (model : String → Except String (Option String))
    (stringify : List Transaction → String)
    (history : List Transaction) (query : String) : Except String String :=
  match model (buildCoachContents stringify history query) with
  | .error e => .error e
  | .ok t => .ok (strOr t coachFallback)

/-! ## Magic-input debounce effect (App component, src/Plan.md)

The `useEffect` keyed on `magicInput`: when the input exceeds 8
characters and no preview is active, it clears any pending timer and
arms a new one capturing the current input; a fired timer issues the
extraction call; an arriving result sets the preview unconditionally
(`if (res.data) setAiPreview(res.data)`) — there is no comparison of the
result's originating input with the current input.  Extraction results
are `extract : String → Option ρ`, a function of the captured input. -/

/-- Observable state of the magic-input surface: current input text, the
active preview, the pending debounce timer (carrying the input it
captured), and the issued still-in-flight calls (each carrying its
originating input). -/
structure MagicState (ρ : Type) where
  input : String
  preview : Option ρ
  timer : Option String
  inflight : List String
deriving Repr, DecidableEq

/-- Events of the magic-input surface. -/
inductive MagicEvent where
  | typeInput (s : String)
  | timerFire
  | resultArrive (origin : String)
deriving Repr, DecidableEq

/-- One event step of the effect system. -/
def magicStep {ρ : Type} (extract : String → Option ρ)
    (st : MagicState ρ) : MagicEvent → MagicState ρ
  | .typeInput s =>
    let st1 := { st with input := s }
    if 8 < s.length then
      match st1.preview with
      | none => { st1 with timer := some s }
      | some _ => st1
    else st1
  | .timerFire =>
    match st.timer with
    | none => st
    | some s => { st with timer := none, inflight := st.inflight ++ [s] }
  | .resultArrive origin =>
    if origin ∈ st.inflight then
      { st with inflight := st.inflight.erase origin,
                preview := match extract origin with
                  | some r => some r
                  | none => st.preview }
    else st

/-- Run a sequence of events from a start state. -/
def magicRun {ρ : Type} (extract : String → Option ρ)
    (st : MagicState ρ) (evts : List MagicEvent) : MagicState ρ :=
  evts.foldl (magicStep extract) st

/-- The closed category enumeration named by the specification. -/
def categoryEnum : List String :=
  ["Food", "Transport", "Utilities", "Entertainment", "Health", "Shopping",
   "Other", "Uncategorized"]

/-- Spec-side predicate for C4, following the claim's words: a
transaction is returned iff it is owned by `userId` and satisfies the
category-equality filter and the inclusive date lower-bound filter,
whenever those are given. -/
def matchesFilters (parseDate : String → Int) (userId : String)
    (fcat fstart : Option String) (t : Transaction) : Bool :=
  t.userId == userId &&
  (match fcat with
    | some c => t.category == c
    | none => true) &&
  (match fstart with
    | some s => decide (parseDate s ≤ parseDate t.date)
    | none => true)

/-- Spec-side value for C3/C9: the sum of the amounts of the
transactions of `txs` whose category equals `c`. -/
def catSum (txs : List Transaction) (c : String) : ℚ :=
  ((txs.filter (fun t => t.category == c)).map Transaction.amount).sum

/-! ## Concrete fixtures for witnesses and counterexamples -/

/-- The default guest user created by the `MockDatabase` constructor. -/
def guestUser : User :=
  { id := "guest_user", email := "guest@zen.finance", name := "Zen Traveler",
    preferences := { currency := "USD", theme := "dark" },
    createdAt := "2025-01-01T00:00:00.000Z" }

/-- A store holding only the guest user. -/
def db0 : DB := { users := [guestUser], transactions := [], budgets := [] }

/-- A payload with a negative amount, a category outside the enumeration
and an unparseable date. -/
def badPayload : PartialTransaction :=
  { amount := some (-5), category := some "Wizardry", date := some "not-a-date",
    merchant := some "Void Mart" }

/-- A concrete guest transaction in category `Food`. -/
def txFood : Transaction :=
  { id := "t1", userId := "guest_user", amount := 10, currency := "USD",
    date := "2025-03-01", category := "Food", merchant := "Cafe",
    description := "", tags := [], isRecurring := false, aiMetadata := none }

/-- A second concrete guest transaction, earlier and in `Transport`. -/
def txBus : Transaction :=
  { id := "t2", userId := "guest_user", amount := 3, currency := "USD",
    date := "2025-01-05", category := "Transport", merchant := "Metro",
    description := "", tags := [], isRecurring := false, aiMetadata := none }

/-- Guest store with one Food transaction and zero budgets. -/
def db3 : DB := { users := [guestUser], transactions := [txFood], budgets := [] }

/-- The Food entry of the default budget set. -/
def defaultFoodBudget : Budget :=
  { id := "b1", userId := currentUserId, category := "Food",
    limitAmount := 500, period := "monthly", spent := 0 }

/-- A stored Food budget for the guest. -/
def foodBudget : Budget :=
  { id := "bf", userId := "guest_user", category := "Food",
    limitAmount := 500, period := "monthly", spent := 0 }

/-- Guest store with transactions and one stored budget. -/
def db4 : DB :=
  { users := [guestUser], transactions := [txFood, txBus], budgets := [foodBudget] }

/-- A concrete date-parsing function for witnesses: the string length. -/
def parseDateLen (s : String) : Int := (s.length : Int)

/-- A concrete JSON parser for witnesses: accepts exactly `"{}"` as the
empty object and rejects everything else. -/
def pjToy (s : String) : Except String PartialTransaction :=
  if s = "{}" then .ok {} else .error "SyntaxError"

end FinZen

namespace FinZen

/-! ## Helper lemmas -/

/-- JS `x || d` on strings never yields the empty string when the
default is non-empty. -/
theorem strOr_ne_empty (x : Option String) {d : String} (hd : d ≠ "") :
    strOr x d ≠ "" := by
  cases x with
  | none => simpa [strOr] using hd
  | some s =>
    by_cases hs : s = "" <;> simp [strOr, hs, hd]

/-- The comparator of a JS `sort((a, b) => key(b) - key(a))` is
transitive. -/
theorem keyDescLe_trans {α β : Type} [LinearOrder β] (key : α → β) :
    ∀ a b c : α, decide (key b ≤ key a) = true → decide (key c ≤ key b) = true →
      decide (key c ≤ key a) = true := by
  intro a b c h1 h2
  simp only [decide_eq_true_eq] at h1 h2 ⊢
  exact le_trans h2 h1

/-- The comparator of a JS `sort((a, b) => key(b) - key(a))` is total. -/
theorem keyDescLe_total {α β : Type} [LinearOrder β] (key : α → β) :
    ∀ a b : α, (decide (key b ≤ key a) || decide (key a ≤ key b)) = true := by
  intro a b
  simp only [Bool.or_eq_true, decide_eq_true_eq]
  exact le_total (key b) (key a)

/-- A stable sort by descending key is pairwise key-descending. -/
theorem pairwise_mergeSort_desc {α β : Type} [LinearOrder β] (key : α → β)
    (l : List α) :
    (l.mergeSort (fun a b => decide (key b ≤ key a))).Pairwise
      (fun a b => key b ≤ key a) := by
  have h := @List.sorted_mergeSort α (fun a b => decide (key b ≤ key a))
    (keyDescLe_trans key) (keyDescLe_total key) l
  exact h.imp (fun hab => of_decide_eq_true hab)

/-- Stability of the descending mergeSort: restricting the output to any
single key value yields exactly the input's elements of that key, in
input order. -/
theorem mergeSort_desc_filter_key {α β : Type} [LinearOrder β] [DecidableEq β]
    (key : α → β) (l : List α) (k : β) :
    (l.mergeSort (fun a b => decide (key b ≤ key a))).filter (fun x => key x == k) =
      l.filter (fun x => key x == k) := by
  have hpw : (l.filter (fun x => key x == k)).Pairwise
      (fun a b => decide (key b ≤ key a) = true) := by
    apply List.pairwise_of_forall_mem_list
    intro a ha b hb
    have hak : key a = k := by simpa using (List.mem_filter.mp ha).2
    have hbk : key b = k := by simpa using (List.mem_filter.mp hb).2
    simp [hak, hbk]
  have hsub : (l.filter (fun x => key x == k)).Sublist
      (l.mergeSort (fun a b => decide (key b ≤ key a))) :=
    List.sublist_mergeSort (keyDescLe_trans key) (keyDescLe_total key) hpw
      (List.filter_sublist l)
  have hsubf : (l.filter (fun x => key x == k)).Sublist
      ((l.mergeSort (fun a b => decide (key b ≤ key a))).filter (fun x => key x == k)) := by
    have h2 := hsub.filter (fun x => key x == k)
    rw [List.filter_filter] at h2
    simpa [Bool.and_self] using h2
  have hperm : ((l.mergeSort (fun a b => decide (key b ≤ key a))).filter
      (fun x => key x == k)).Perm (l.filter (fun x => key x == k)) :=
    (List.mergeSort_perm l _).filter _
  exact ((hsubf.eq_of_length (hperm.length_eq.symm)).symm)

/-- `reduce((sum, t) => sum + t.amount, a)` is `a` plus the sum of the
amounts. -/
theorem foldl_add_amount (txs : List Transaction) (a : ℚ) :
    txs.foldl (fun sum t => sum + t.amount) a = a + (txs.map Transaction.amount).sum := by
  induction txs generalizing a with
  | nil => simp
  | cons t rest ih => simp [ih, add_assoc]

/-- `totalSpent` is the sum of the amounts. -/
theorem totalSpentOf_eq_sum (txs : List Transaction) :
    totalSpentOf txs = (txs.map Transaction.amount).sum := by
  simpa using foldl_add_amount txs 0

/-- With non-degenerate filters (no empty-string values), the filter
pipeline of `getTransactions` keeps exactly the transactions matching
the claim's predicate, in store order. -/
theorem txFilterPipeline_eq_filter (parseDate : String → Int) (uid : String)
    (fcat fstart : Option String) (hc : fcat ≠ some "") (hs : fstart ≠ some "")
    (txs : List Transaction) :
    MockDatabase.txFilterPipeline parseDate uid fcat fstart txs =
      txs.filter (matchesFilters parseDate uid fcat fstart) := by
  have hfil : ∀ (p q : Transaction → Bool),
      (txs.filter p).filter q = txs.filter (fun t => p t && q t) := by
    intro p q
    rw [List.filter_filter]
    apply List.filter_congr
    intro t _
    cases hp : p t <;> cases hq : q t <;> simp [hp, hq]
  cases fcat with
  | none =>
    cases fstart with
    | none =>
      simp only [MockDatabase.txFilterPipeline]
      apply List.filter_congr
      intro t _
      simp [matchesFilters]
    | some s =>
      have hsne : s ≠ "" := by intro h; exact hs (by rw [h])
      simp only [MockDatabase.txFilterPipeline, if_neg hsne, hfil]
      apply List.filter_congr
      intro t _
      simp [matchesFilters]
  | some c =>
    have hcne : c ≠ "" := by intro h; exact hc (by rw [h])
    cases fstart with
    | none =>
      simp only [MockDatabase.txFilterPipeline, if_neg hcne, hfil]
      apply List.filter_congr
      intro t _
      simp [matchesFilters]
    | some s =>
      have hsne : s ≠ "" := by intro h; exact hs (by rw [h])
      simp only [MockDatabase.txFilterPipeline, if_neg hcne, if_neg hsne, hfil]
      apply List.filter_congr
      intro t _
      simp [matchesFilters, Bool.and_assoc]

/-- `catSum` over a cons. -/
theorem catSum_cons (t : Transaction) (rest : List Transaction) (c : String) :
    catSum (t :: rest) c =
      if t.category = c then t.amount + catSum rest c else catSum rest c := by
  by_cases h : t.category = c <;> simp [catSum, List.filter_cons, h]

/-- A category absent from the list contributes a zero sum. -/
theorem catSum_of_not_any (txs : List Transaction) (c : String)
    (h : txs.any (fun t => t.category == c) = false) : catSum txs c = 0 := by
  have : txs.filter (fun t => t.category == c) = [] := by
    rw [List.filter_eq_nil_iff]
    intro t ht
    simpa using (List.any_eq_false.mp h) t ht
  simp [catSum, this]

/-- Lookup after one `accumCat` step. -/
theorem lookup_accumCat (m : List (String × ℚ)) (c c' : String) (a : ℚ) :
    (accumCat m c a).lookup c' =
      if c' = c then some (((m.lookup c').getD 0) + a) else m.lookup c' := by
  induction m with
  | nil =>
    by_cases h : c' = c
    · have hb : (c' == c) = true := by simpa using h
      simp [accumCat, List.lookup_cons, hb, h]
    · have hb : (c' == c) = false := by simpa using h
      simp [accumCat, List.lookup_cons, hb, h]
  | cons p rest ih =>
    obtain ⟨c₀, v⟩ := p
    by_cases h0 : c₀ = c
    · subst h0
      by_cases h' : c' = c₀
      · have hb : (c' == c₀) = true := by simpa using h'
        simp [accumCat, List.lookup_cons, hb, h']
      · have hb : (c' == c₀) = false := by simpa using h'
        simp [accumCat, List.lookup_cons, hb, h']
    · by_cases h' : c' = c₀
      · subst h'
        have hne : ¬ c' = c := fun hh => h0 hh
        have hb : (c' == c') = true := by simp
        simp [accumCat, h0, List.lookup_cons, hb, hne]
      · have hb : (c' == c₀) = false := by simpa using h'
        simp [accumCat, h0, List.lookup_cons, hb, ih]

/-- Key membership after one `accumCat` step. -/
theorem mem_keys_accumCat (m : List (String × ℚ)) (c : String) (a : ℚ) (x : String) :
    x ∈ (accumCat m c a).map Prod.fst ↔ x ∈ m.map Prod.fst ∨ x = c := by
  induction m with
  | nil => simp [accumCat]
  | cons p rest ih =>
    obtain ⟨c₀, v⟩ := p
    by_cases h : c₀ = c
    · subst h
      simp [accumCat]
      tauto
    · simp [accumCat, h, ih]
      tauto

/-- `accumCat` preserves key distinctness. -/
theorem nodup_keys_accumCat (m : List (String × ℚ)) (c : String) (a : ℚ)
    (h : (m.map Prod.fst).Nodup) : ((accumCat m c a).map Prod.fst).Nodup := by
  induction m with
  | nil => simp [accumCat]
  | cons p rest ih =>
    obtain ⟨c₀, v⟩ := p
    simp only [List.map_cons, List.nodup_cons] at h
    by_cases h0 : c₀ = c
    · subst h0
      simpa [accumCat] using h
    · simp only [accumCat, h0, if_false, List.map_cons, List.nodup_cons]
      refine ⟨?_, ih h.2⟩
      rw [mem_keys_accumCat]
      rintro (hx | hx)
      · exact h.1 hx
      · exact h0 hx

/-- On an association list with distinct keys, membership determines the
lookup. -/
theorem lookup_eq_of_mem_nodup {m : List (String × ℚ)}
    (h : (m.map Prod.fst).Nodup) {c : String} {v : ℚ} (hm : (c, v) ∈ m) :
    m.lookup c = some v := by
  induction m with
  | nil => simp at hm
  | cons p rest ih =>
    obtain ⟨c₀, v₀⟩ := p
    simp only [List.map_cons, List.nodup_cons] at h
    rcases List.mem_cons.mp hm with heq | hmem
    · obtain ⟨rfl, rfl⟩ := Prod.mk.injEq .. ▸ heq
      have hb : (c == c) = true := by simp
      simp [List.lookup_cons, hb]
    · have hne : ¬ c = c₀ := by
        rintro rfl
        exact h.1 (List.mem_map.mpr ⟨(c, v), hmem, rfl⟩)
      have hb : (c == c₀) = false := by simpa using hne
      simp only [List.lookup_cons, hb]
      exact ih h.2 hmem

/-- `(l.lookup c).isSome` detects key membership. -/
theorem lookup_isSome_iff (m : List (String × ℚ)) (c : String) :
    (m.lookup c).isSome = true ↔ c ∈ m.map Prod.fst := by
  induction m with
  | nil => simp [List.lookup]
  | cons p rest ih =>
    obtain ⟨c₀, v₀⟩ := p
    by_cases h : c = c₀
    · have hb : (c == c₀) = true := by simpa using h
      simp [List.lookup_cons, hb, h]
    · have hb : (c == c₀) = false := by simpa using h
      simp [List.lookup_cons, hb, h, ih]

/-- Value sum after one `accumCat` step. -/
theorem snd_sum_accumCat (m : List (String × ℚ)) (c : String) (a : ℚ) :
    ((accumCat m c a).map Prod.snd).sum = (m.map Prod.snd).sum + a := by
  induction m with
  | nil => simp [accumCat]
  | cons p rest ih =>
    obtain ⟨c₀, v⟩ := p
    by_cases h : c₀ = c
    · subst h
      simp [accumCat]
      ring
    · simp [accumCat, h, ih]
      ring

/-- Lookup in the `catMap` accumulation, with an arbitrary start map. -/
theorem lookup_catMapAux (txs : List Transaction) (m : List (String × ℚ)) (c : String) :
    (txs.foldl (fun m t => accumCat m t.category t.amount) m).lookup c =
      if txs.any (fun t => t.category == c)
      then some (((m.lookup c).getD 0) + catSum txs c)
      else m.lookup c := by
  induction txs generalizing m with
  | nil => simp [catSum]
  | cons t rest ih =>
    rw [List.foldl_cons, ih (accumCat m t.category t.amount)]
    by_cases ht : t.category = c
    · have hb : (t.category == c) = true := by simpa using ht
      have h1 := lookup_accumCat m t.category c t.amount
      rw [if_pos ht.symm] at h1
      rw [h1]
      by_cases hr : rest.any (fun t => t.category == c) = true
      · simp [hb, hr, catSum_cons, ht, add_assoc]
      · have hr' : rest.any (fun t => t.category == c) = false := by
          cases hx : rest.any (fun t => t.category == c)
          · rfl
          · exact absurd hx hr
        simp [hb, hr', catSum_cons, ht, catSum_of_not_any rest c hr']
    · have hb : (t.category == c) = false := by simpa using ht
      rw [lookup_accumCat]
      have hcs : catSum (t :: rest) c = catSum rest c := by
        rw [catSum_cons, if_neg ht]
      have hne : ¬ c = t.category := fun hh => ht hh.symm
      simp only [List.any_cons, hb, Bool.false_or, hcs, if_neg hne]

/-- The `catMap` accumulation preserves key distinctness. -/
theorem nodup_keys_catMapAux (txs : List Transaction) (m : List (String × ℚ))
    (h : (m.map Prod.fst).Nodup) :
    ((txs.foldl (fun m t => accumCat m t.category t.amount) m).map Prod.fst).Nodup := by
  induction txs generalizing m with
  | nil => exact h
  | cons t rest ih =>
    rw [List.foldl_cons]
    exact ih _ (nodup_keys_accumCat m t.category t.amount h)

/-- Value sum of the `catMap` accumulation. -/
theorem snd_sum_catMapAux (txs : List Transaction) (m : List (String × ℚ)) :
    ((txs.foldl (fun m t => accumCat m t.category t.amount) m).map Prod.snd).sum =
      (m.map Prod.snd).sum + (txs.map Transaction.amount).sum := by
  induction txs generalizing m with
  | nil => simp
  | cons t rest ih =>
    rw [List.foldl_cons, ih (accumCat m t.category t.amount), snd_sum_accumCat]
    simp [add_assoc]

/-- `catMap` keys are distinct. -/
theorem nodup_keys_catMap (txs : List Transaction) :
    ((catMap txs).map Prod.fst).Nodup :=
  nodup_keys_catMapAux txs [] (by simp)

/-- Lookup in `catMap`. -/
theorem lookup_catMap (txs : List Transaction) (c : String) :
    (catMap txs).lookup c =
      if txs.any (fun t => t.category == c) then some (catSum txs c) else none := by
  have h := lookup_catMapAux txs [] c
  simpa [catMap, List.lookup] using h

/-- Every entry of `catMap` carries the category's transaction sum. -/
theorem mem_catMap_val (txs : List Transaction) {c : String} {v : ℚ}
    (h : (c, v) ∈ catMap txs) : v = catSum txs c := by
  have hl := lookup_eq_of_mem_nodup (nodup_keys_catMap txs) h
  rw [lookup_catMap] at hl
  by_cases ha : txs.any (fun t => t.category == c) = true
  · rw [if_pos ha] at hl
    exact (Option.some.injEq .. ▸ hl).symm
  · have ha' : txs.any (fun t => t.category == c) = false := by
      cases hx : txs.any (fun t => t.category == c)
      · rfl
      · exact absurd hx ha
    rw [ha'] at hl
    simp at hl

/-- `catMap` keys are exactly the categories present in the list. -/
theorem mem_keys_catMap (txs : List Transaction) (x : String) :
    x ∈ (catMap txs).map Prod.fst ↔ ∃ t ∈ txs, t.category = x := by
  rw [← lookup_isSome_iff, lookup_catMap]
  by_cases ha : txs.any (fun t => t.category == x) = true
  · rw [ha, if_pos rfl]
    simp only [Option.isSome_some, true_iff]
    obtain ⟨t, ht, hc⟩ := List.any_eq_true.mp ha
    exact ⟨t, ht, by simpa using hc⟩
  · have ha' : txs.any (fun t => t.category == x) = false := by
      cases hx : txs.any (fun t => t.category == x)
      · rfl
      · exact absurd hx ha
    rw [ha', if_neg (by simp)]
    constructor
    · intro h
      simp at h
    · rintro ⟨t, ht, rfl⟩
      exact absurd (List.any_eq_true.mpr ⟨t, ht, by simp⟩) ha

/-- The `catMap` values sum to `totalSpent`. -/
theorem catMap_snd_sum (txs : List Transaction) :
    ((catMap txs).map Prod.snd).sum = totalSpentOf txs := by
  have h := snd_sum_catMapAux txs []
  simpa [catMap, totalSpentOf_eq_sum] using h

/-- Every budget answered by the store has `spent` equal to the sum of
the amounts of the owner's transactions in the budget's category. -/
theorem getBudgets_spent (parseDate : String → Int) (db : DB) (uid : String) :
    ∀ b ∈ MockDatabase.getBudgets parseDate db uid,
      b.spent = catSum (db.transactions.filter (fun t => t.userId == uid)) b.category := by
  intro b hb
  simp only [MockDatabase.getBudgets, List.mem_map] at hb
  obtain ⟨b0, hb0, rfl⟩ := hb
  simp only
  rw [foldl_add_amount, zero_add, catSum]
  apply List.Perm.sum_eq
  apply List.Perm.map
  apply List.Perm.filter
  exact List.mergeSort_perm _ _

/-! ## Claim theorems -/

/-- C9: `topCategories` lists the per-category sums of the transaction
set, sorted descending by amount; its categories are exactly those
present; when `totalSpent > 0` every percentage is
`amount / totalSpent * 100` and the percentages sum to 100; when
`totalSpent = 0` every percentage is 0. -/
theorem topCategories_spec (txs : List Transaction) :
    (AnalyticsService.topCategoriesOf txs).Pairwise (fun a b => b.amount ≤ a.amount) ∧
    (∀ e ∈ AnalyticsService.topCategoriesOf txs, e.amount = catSum txs e.category) ∧
    (∀ c : String, (∃ e ∈ AnalyticsService.topCategoriesOf txs, e.category = c) ↔
        ∃ t ∈ txs, t.category = c) ∧
    (0 < totalSpentOf txs →
      (∀ e ∈ AnalyticsService.topCategoriesOf txs,
          e.percentage = e.amount / totalSpentOf txs * 100) ∧
      ((AnalyticsService.topCategoriesOf txs).map CategorySpending.percentage).sum = 100) ∧
    (totalSpentOf txs = 0 →
      ∀ e ∈ AnalyticsService.topCategoriesOf txs, e.percentage = 0) := by
  have hdef : AnalyticsService.topCategoriesOf txs =
      ((catMap txs).map (catEntry (totalSpentOf txs))).mergeSort
        (fun a b => decide (b.amount ≤ a.amount)) := rfl
  refine ⟨?_, ?_, ?_, ?_, ?_⟩
  · rw [hdef]
    exact pairwise_mergeSort_desc (fun x : CategorySpending => x.amount) _
  · intro e he
    rw [hdef, List.mem_mergeSort, List.mem_map] at he
    obtain ⟨p, hp, rfl⟩ := he
    exact mem_catMap_val txs hp
  · intro c
    rw [hdef]
    constructor
    · rintro ⟨e, he, rfl⟩
      rw [List.mem_mergeSort, List.mem_map] at he
      obtain ⟨p, hp, rfl⟩ := he
      exact (mem_keys_catMap txs p.1).mp (List.mem_map.mpr ⟨p, hp, rfl⟩)
    · rintro ⟨t, ht, rfl⟩
      obtain ⟨p, hp, hpc⟩ := List.mem_map.mp
        ((mem_keys_catMap txs t.category).mpr ⟨t, ht, rfl⟩)
      refine ⟨_, List.mem_mergeSort.mpr (List.mem_map.mpr ⟨p, hp, rfl⟩), hpc⟩
  · intro hT
    constructor
    · intro e he
      rw [hdef, List.mem_mergeSort, List.mem_map] at he
      obtain ⟨p, hp, rfl⟩ := he
      simp [catEntry, hT]
    · rw [hdef]
      rw [((List.mergeSort_perm _ _).map CategorySpending.percentage).sum_eq,
        List.map_map]
      have hfun : (CategorySpending.percentage ∘ catEntry (totalSpentOf txs)) =
          fun e : String × ℚ => e.2 * (100 / totalSpentOf txs) := by
        funext p
        simp only [Function.comp_apply, catEntry, if_pos hT]
        rw [div_mul_eq_mul_div, mul_div_assoc]
      rw [hfun, List.sum_map_mul_right, catMap_snd_sum, mul_comm,
        div_mul_cancel₀ _ (ne_of_gt hT)]
  · intro hT0 e he
    rw [hdef, List.mem_mergeSort, List.mem_map] at he
    obtain ⟨p, hp, rfl⟩ := he
    simp [catEntry, hT0]

/-- C9 witness: for a concrete transaction set with positive total, the
percentages sum to 100. -/
theorem topCategories_spec_witness :
    ((AnalyticsService.topCategoriesOf [txFood, txBus]).map CategorySpending.percentage).sum
      = 100 :=
  ((topCategories_spec [txFood, txBus]).2.2.2.1
    (by simp [totalSpentOf, txFood, txBus]; norm_num)).2

/-- C10: `deleteTransaction` removes exactly the transactions whose id
and userId both match, keeps every other transaction (in order) and the
users and budgets collections unchanged; with no match the state is
unchanged and no error is raised; deletion is idempotent. -/
theorem deleteTransaction_exact_frame_idempotent (db : DB) (id uid : String) :
    (∀ t, t ∈ (MockDatabase.deleteTransaction db id uid).transactions ↔
        t ∈ db.transactions ∧ ¬(t.id = id ∧ t.userId = uid)) ∧
    (MockDatabase.deleteTransaction db id uid).transactions.Sublist db.transactions ∧
    (MockDatabase.deleteTransaction db id uid).users = db.users ∧
    (MockDatabase.deleteTransaction db id uid).budgets = db.budgets ∧
    ((∀ t ∈ db.transactions, ¬(t.id = id ∧ t.userId = uid)) →
        MockDatabase.deleteTransaction db id uid = db) ∧
    MockDatabase.deleteTransaction (MockDatabase.deleteTransaction db id uid) id uid =
        MockDatabase.deleteTransaction db id uid := by
  obtain ⟨us, txs, bs⟩ := db
  refine ⟨?_, List.filter_sublist _, rfl, rfl, ?_, ?_⟩
  · intro t
    simp only [MockDatabase.deleteTransaction, List.mem_filter]
    constructor
    · rintro ⟨ht, hp⟩
      refine ⟨ht, ?_⟩
      rintro ⟨h1, h2⟩
      simp [h1, h2] at hp
    · rintro ⟨ht, hp⟩
      refine ⟨ht, ?_⟩
      simp only [Bool.not_eq_eq_eq_not, Bool.not_true, Bool.and_eq_false_imp, beq_iff_eq]
      intro h1
      simp only [not_and] at hp
      simp [beq_iff_eq, hp h1]
  · intro h
    simp only [MockDatabase.deleteTransaction]
    congr 1
    rw [List.filter_eq_self]
    intro t ht
    have := h t ht
    simp only [Bool.not_eq_eq_eq_not, Bool.not_true, Bool.and_eq_false_imp, beq_iff_eq]
    simp only [not_and] at this
    intro h1
    simp [beq_iff_eq, this h1]
  · simp only [MockDatabase.deleteTransaction]
    congr 1
    rw [List.filter_eq_self]
    intro t ht
    exact (List.mem_filter.mp ht).2

/-- C10 witness: deleting an id absent from a concrete store leaves the
store unchanged. -/
theorem deleteTransaction_noop_witness :
    MockDatabase.deleteTransaction db4 "no-such-id" "guest_user" = db4 :=
  (deleteTransaction_exact_frame_idempotent db4 "no-such-id" "guest_user").2.2.2.2.1
    (by decide)

/-- C8 counterexample: the image-parse schema does not mark `category`
required, contrary to the claim that all five fields are mandatory. -/
theorem scanReceiptSchema_category_not_required :
    "category" ∉ scanReceiptSchema.required ∧
    "category" ∈ scanReceiptSchema.properties := by decide

/-- C8 (amended): the image-parse schema lists the five fields as
properties but marks only `amount`, `currency`, `merchant` and `date`
required; `category` is not required. -/
theorem scanReceiptSchema_required_fields :
    scanReceiptSchema.properties = ["amount", "currency", "merchant", "category", "date"] ∧
    scanReceiptSchema.required = ["amount", "currency", "merchant", "date"] ∧
    "category" ∉ scanReceiptSchema.required := by decide

/-- C6 counterexample: a transport failure of the model call propagates
out of `askFinancialCoach` as an error; the fixed fallback string is not
returned. -/
theorem askFinancialCoach_error_propagates :
    askFinancialCoach (fun _ => .error "network unreachable") (fun _ => "[]")
        [] "why am I broke" = .error "network unreachable" ∧
    (Except.error "network unreachable" : Except String String) ≠ .ok coachFallback :=
  ⟨rfl, fun h => nomatch h⟩

/-- C6 (amended): `askFinancialCoach` returns the fixed fallback string
only when the model call succeeds with an empty or missing text; a
transport failure propagates unchanged to the caller. -/
theorem askFinancialCoach_fallback_policy
    (model : String → Except String (Option String))
    (stringify : List Transaction → String)
    (history : List Transaction) (query : String) :
    (∀ e, model (buildCoachContents stringify history query) = .error e →
        askFinancialCoach model stringify history query = .error e) ∧
    (model (buildCoachContents stringify history query) = .ok none →
        askFinancialCoach model stringify history query = .ok coachFallback) ∧
    (model (buildCoachContents stringify history query) = .ok (some "") →
        askFinancialCoach model stringify history query = .ok coachFallback) ∧
    (∀ s, s ≠ "" → model (buildCoachContents stringify history query) = .ok (some s) →
        askFinancialCoach model stringify history query = .ok s) := by
  refine ⟨?_, ?_, ?_, ?_⟩
  · intro e h; simp [askFinancialCoach, h]
  · intro h; simp [askFinancialCoach, h, strOr]
  · intro h; simp [askFinancialCoach, h, strOr]
  · intro s hs h; simp [askFinancialCoach, h, strOr, hs]

/-- C6 witness: a successful call with empty text yields the fallback. -/
theorem askFinancialCoach_fallback_witness :
    askFinancialCoach (fun _ => .ok (some "")) (fun _ => "[]") [] "hello" =
      .ok coachFallback :=
  (askFinancialCoach_fallback_policy (fun _ => .ok (some "")) (fun _ => "[]")
    [] "hello").2.2.1 rfl

/-- C5: when the transported model response fails JSON parsing (or is
empty, given that `"{}"` parses to the empty object), both extraction
calls return an empty record without any exception escaping. -/
theorem gateway_parse_failure_yields_empty
    (parseJson : String → Except String PartialTransaction)
    (respText : Option String) :
    (∀ e, parseJson (responseTextOrDefault respText) = .error e →
        parseTransactionWithAI parseJson respText =
          .ok ({}, responseTextOrDefault respText) ∧
        scanReceiptWithAI parseJson respText = .ok {}) ∧
    ((respText = none ∨ respText = some "") → parseJson "{}" = .ok {} →
        parseTransactionWithAI parseJson respText = .ok ({}, "{}") ∧
        scanReceiptWithAI parseJson respText = .ok {}) := by
  constructor
  · intro e h
    constructor
    · simp [parseTransactionWithAI, h]
    · simp [scanReceiptWithAI, h]
  · intro hr h
    have ht : responseTextOrDefault respText = "{}" := by
      rcases hr with rfl | rfl <;> simp [responseTextOrDefault]
    constructor
    · simp [parseTransactionWithAI, ht, h]
    · simp [scanReceiptWithAI, ht, h]

/-- C5 witness: a concrete malformed response yields the empty record
from both calls. -/
theorem gateway_parse_failure_witness :
    parseTransactionWithAI pjToy (some "not json") = .ok ({}, "not json") ∧
    scanReceiptWithAI pjToy (some "not json") = .ok {} :=
  (gateway_parse_failure_yields_empty pjToy (some "not json")).1 "SyntaxError" rfl

/-- C7 counterexample: a concrete run of the magic-input effect in which
an extraction issued for `"latte 12 usd"` arrives after the input has
changed to `"latte 12 usd today"`; the stale result still populates the
preview (before its arrival the preview was empty). -/
theorem magic_stale_result_shown :
    (magicRun (fun s => some s) ⟨"", none, none, []⟩
        [.typeInput "latte 12 usd", .timerFire,
         .typeInput "latte 12 usd today"]).preview = none ∧
    (magicRun (fun s => some s) ⟨"", none, none, []⟩
        [.typeInput "latte 12 usd", .timerFire,
         .typeInput "latte 12 usd today"]).input = "latte 12 usd today" ∧
    (magicRun (fun s => some s) ⟨"", none, none, []⟩
        [.typeInput "latte 12 usd", .timerFire,
         .typeInput "latte 12 usd today",
         .resultArrive "latte 12 usd"]).preview = some "latte 12 usd" ∧
    "latte 12 usd" ≠ "latte 12 usd today" := by decide

/-- C7 (amended): an extraction whose debounce timer has not yet fired
is cancelled by a new keystroke (the timer is replaced, nothing is
issued); but a result of an already-issued in-flight call populates the
preview on arrival even when the input no longer matches its origin. -/
theorem magic_debounce_and_inflight {ρ : Type} (extract : String → Option ρ)
    (st : MagicState ρ) (s origin : String) (r : ρ) :
    (8 < s.length → st.preview = none →
        magicStep extract st (.typeInput s) =
          { st with input := s, timer := some s }) ∧
    (origin ∈ st.inflight → extract origin = some r → st.input ≠ origin →
        (magicStep extract st (.resultArrive origin)).preview = some r) := by
  obtain ⟨i, p, tm, fl⟩ := st
  constructor
  · intro hl hp
    simp only at hp
    subst hp
    simp [magicStep, hl]
  · intro hm he _
    simp only at hm
    simp [magicStep, hm, he]

/-- C7 witness: at a concrete state, a keystroke replaces the pending
timer, and a stale in-flight result is applied. -/
theorem magic_debounce_and_inflight_witness :
    magicStep (fun s => some s) (⟨"latte 12", none, some "latte 12", []⟩ : MagicState String)
        (.typeInput "latte 12 u") =
      ⟨"latte 12 u", none, some "latte 12 u", []⟩ ∧
    (magicStep (fun s => some s)
        (⟨"latte 12 usd today", none, none, ["latte 12 usd"]⟩ : MagicState String)
        (.resultArrive "latte 12 usd")).preview = some "latte 12 usd" :=
  ⟨(magic_debounce_and_inflight (fun s => some s)
      ⟨"latte 12", none, some "latte 12", []⟩ "latte 12 u" "x" "x").1
      (by decide) rfl,
   (magic_debounce_and_inflight (fun s => some s)
      ⟨"latte 12 usd today", none, none, ["latte 12 usd"]⟩ "x" "latte 12 usd"
      "latte 12 usd").2 (by decide) rfl (by decide)⟩

/-- C4 counterexample: with the expressible filter `{category: ""}` the
claim fails — JS truthiness skips an empty-string filter, so the read
returns a `Food` transaction that does not satisfy the claimed
category-equality predicate (`matchesFilters` is false on it). -/
theorem getTransactions_empty_filter_ignored :
    txFood ∈ MockDatabase.getTransactions parseDateLen db3 "guest_user" (some "") none ∧
    matchesFilters parseDateLen "guest_user" (some "") none txFood = false := by
  constructor
  · simp only [MockDatabase.getTransactions, MockDatabase.sortByDateDesc, List.mem_mergeSort]
    simp [MockDatabase.txFilterPipeline, db3, txFood]
  · decide

/-- C4 (amended): an empty-string filter value is treated as absent (JS
truthiness) and constrains nothing; for every other filter value (absent
or non-empty), `getTransactions` returns exactly the owner's
transactions matching the category-equality and inclusive
date-lower-bound filters, ordered by parsed date descending with ties
kept in insertion order; no match yields the empty sequence (no error),
and a record just created appears in the next unfiltered read. -/
theorem getTransactions_spec (parseDate : String → Int) (db : DB) (uid : String)
    (fcat fstart : Option String) (hc : fcat ≠ some "") (hs : fstart ≠ some "") :
    (MockDatabase.getTransactions parseDate db uid fcat fstart).Perm
        (db.transactions.filter (matchesFilters parseDate uid fcat fstart)) ∧
    (MockDatabase.getTransactions parseDate db uid fcat fstart).Pairwise
        (fun a b => parseDate b.date ≤ parseDate a.date) ∧
    (∀ k : Int, (MockDatabase.getTransactions parseDate db uid fcat fstart).filter
          (fun t => parseDate t.date == k) =
        (db.transactions.filter (matchesFilters parseDate uid fcat fstart)).filter
          (fun t => parseDate t.date == k)) ∧
    ((∀ t ∈ db.transactions, matchesFilters parseDate uid fcat fstart t = false) →
        MockDatabase.getTransactions parseDate db uid fcat fstart = []) ∧
    (∀ tx : Transaction, tx.userId = uid →
        tx ∈ MockDatabase.getTransactions parseDate
            (MockDatabase.createTransaction db tx).1 uid none none) := by
  have hpipe := txFilterPipeline_eq_filter parseDate uid fcat fstart hc hs db.transactions
  have hget : MockDatabase.getTransactions parseDate db uid fcat fstart =
      (db.transactions.filter (matchesFilters parseDate uid fcat fstart)).mergeSort
        (fun a b => decide (parseDate b.date ≤ parseDate a.date)) := by
    simp only [MockDatabase.getTransactions, MockDatabase.sortByDateDesc, hpipe]
  refine ⟨?_, ?_, ?_, ?_, ?_⟩
  · rw [hget]
    exact List.mergeSort_perm _ _
  · rw [hget]
    exact pairwise_mergeSort_desc (fun t : Transaction => parseDate t.date) _
  · intro k
    rw [hget]
    exact mergeSort_desc_filter_key (fun t : Transaction => parseDate t.date) _ k
  · intro h
    have hnil : db.transactions.filter (matchesFilters parseDate uid fcat fstart) = [] :=
      List.filter_eq_nil_iff.mpr (by intro t ht; simp [h t ht])
    rw [hget, hnil]
    exact List.mergeSort_nil
  · intro tx htx
    simp only [MockDatabase.getTransactions, MockDatabase.createTransaction,
      MockDatabase.sortByDateDesc, MockDatabase.txFilterPipeline, List.mem_mergeSort]
    exact List.mem_filter.mpr
      ⟨List.mem_append_right _ (List.mem_singleton.mpr rfl), by simp [htx]⟩

/-- C4 witness: the returned sequence for a concrete store and category
filter is a permutation of the matching transactions. -/
theorem getTransactions_spec_witness :
    (MockDatabase.getTransactions parseDateLen db4 "guest_user" (some "Food") none).Perm
      (db4.transactions.filter (matchesFilters parseDateLen "guest_user" (some "Food") none)) :=
  (getTransactions_spec parseDateLen db4 "guest_user" (some "Food") none
    (by decide) (by decide)).1

/-- C3 counterexample: a user with one Food transaction of amount 10 and
zero stored budgets is served the fixed default budgets, whose Food
entry reports `spent = 0` instead of the transaction sum 10. -/
theorem default_budget_spent_stale :
    (BudgetService.getAll parseDateLen db3).data = some defaultBudgets ∧
    ∃ b ∈ defaultBudgets, b.category = "Food" ∧ b.spent = 0 ∧
      catSum (db3.transactions.filter (fun t => t.userId == currentUserId)) b.category = 10 ∧
      b.spent ≠ catSum (db3.transactions.filter (fun t => t.userId == currentUserId)) b.category := by
  have hsum : catSum (db3.transactions.filter (fun t => t.userId == currentUserId)) "Food" = 10 := by
    simp [catSum, db3, txFood, currentUserId]
  refine ⟨?_, ?_⟩
  · simp [BudgetService.getAll, MockDatabase.getBudgets, db3]
  · refine ⟨defaultFoodBudget, ?_, rfl, rfl, hsum, ?_⟩
    · simp [defaultBudgets, defaultFoodBudget]
    · simp only [defaultFoodBudget]
      rw [hsum]
      norm_num

/-- C3 (amended): when the user has at least one stored budget, every
budget returned by the read path has `spent` equal to the sum of that
user's transaction amounts in the budget's category at read time; when
the user has zero stored budgets, the fixed default
Food/Transport/Entertainment set is returned with `spent` fixed at 0,
regardless of the user's transactions. -/
theorem budget_spent_policy (parseDate : String → Int) (db : DB) :
    (BudgetService.getAll parseDate db).status = 200 ∧
    ∃ bs, (BudgetService.getAll parseDate db).data = some bs ∧
      (db.budgets.filter (fun b => b.userId == currentUserId) = [] →
          bs = defaultBudgets ∧ ∀ b ∈ bs, b.spent = 0) ∧
      (db.budgets.filter (fun b => b.userId == currentUserId) ≠ [] →
          ∀ b ∈ bs, b.spent = catSum
            (db.transactions.filter (fun t => t.userId == currentUserId)) b.category) := by
  by_cases h : MockDatabase.getBudgets parseDate db currentUserId = []
  · have hfil : db.budgets.filter (fun b => b.userId == currentUserId) = [] := by
      simpa only [MockDatabase.getBudgets, List.map_eq_nil_iff] using h
    refine ⟨?_, defaultBudgets, ?_, fun _ => ⟨rfl, by decide⟩, fun hne => absurd hfil hne⟩
    · simp [BudgetService.getAll, h]
    · simp [BudgetService.getAll, h]
  · refine ⟨?_, MockDatabase.getBudgets parseDate db currentUserId, ?_, fun hempty => ?_, fun _ => ?_⟩
    · simp [BudgetService.getAll, h]
    · simp [BudgetService.getAll, h]
    · exact absurd (by simp only [MockDatabase.getBudgets, hempty, List.map_nil]) h
    · exact getBudgets_spent parseDate db currentUserId

/-- C3 witness: for a concrete store with a stored Food budget, the
returned `spent` values match the transaction sums. -/
theorem budget_spent_policy_witness :
    ∃ bs, (BudgetService.getAll parseDateLen db4).data = some bs ∧
      ∀ b ∈ bs, b.spent = catSum
        (db4.transactions.filter (fun t => t.userId == currentUserId)) b.category := by
  obtain ⟨-, bs, hbs, -, h⟩ := budget_spent_policy parseDateLen db4
  exact ⟨bs, hbs, h (by decide)⟩

/-- C1 counterexample: a payload with negative amount, a category
outside the enumeration and an unparseable date is accepted by the
create path with status 201 and no error, and the stored transaction set
grows — no `ValidationError` is raised and the record is applied. -/
theorem create_invalid_input_accepted :
    (TransactionService.create db0 "tx1" "2025-05-05T00:00:00.000Z" badPayload).1.status = 201 ∧
    (TransactionService.create db0 "tx1" "2025-05-05T00:00:00.000Z" badPayload).1.error = none ∧
    (TransactionService.create db0 "tx1" "2025-05-05T00:00:00.000Z" badPayload).2.transactions ≠
        db0.transactions ∧
    ∃ t ∈ (TransactionService.create db0 "tx1" "2025-05-05T00:00:00.000Z" badPayload).2.transactions,
        t.amount < 0 ∧ t.category ∉ categoryEnum ∧ t.date = "not-a-date" := by decide

/-- C1 (amended): the create path performs no input validation: whenever
the session user resolves, every payload — negative amount, category
outside the enumeration, unparseable date included — is accepted with
status 201 and exactly the built record is appended; users and budgets
are untouched and no error is reported. -/
theorem create_never_validates (db : DB) (freshId nowIso : String)
    (payload : PartialTransaction) (u : User)
    (h : MockDatabase.getUser db currentUserId = some u) :
    (TransactionService.create db freshId nowIso payload).1.status = 201 ∧
    (TransactionService.create db freshId nowIso payload).1.error = none ∧
    (TransactionService.create db freshId nowIso payload).1.data =
        some (mkNewTx u freshId nowIso payload) ∧
    (TransactionService.create db freshId nowIso payload).2.transactions =
        db.transactions ++ [mkNewTx u freshId nowIso payload] ∧
    (TransactionService.create db freshId nowIso payload).2.users = db.users ∧
    (TransactionService.create db freshId nowIso payload).2.budgets = db.budgets := by
  simp [TransactionService.create, h, MockDatabase.createTransaction]

/-- C1 witness: the amended statement evaluated on a concrete store and
the bad payload. -/
theorem create_never_validates_witness :
    (TransactionService.create db0 "tx1" "2025-05-05T00:00:00.000Z" badPayload).1.status = 201 ∧
    (TransactionService.create db0 "tx1" "2025-05-05T00:00:00.000Z" badPayload).1.error = none ∧
    (TransactionService.create db0 "tx1" "2025-05-05T00:00:00.000Z" badPayload).1.data =
        some (mkNewTx guestUser "tx1" "2025-05-05T00:00:00.000Z" badPayload) ∧
    (TransactionService.create db0 "tx1" "2025-05-05T00:00:00.000Z" badPayload).2.transactions =
        db0.transactions ++ [mkNewTx guestUser "tx1" "2025-05-05T00:00:00.000Z" badPayload] ∧
    (TransactionService.create db0 "tx1" "2025-05-05T00:00:00.000Z" badPayload).2.users = db0.users ∧
    (TransactionService.create db0 "tx1" "2025-05-05T00:00:00.000Z" badPayload).2.budgets = db0.budgets :=
  create_never_validates db0 "tx1" "2025-05-05T00:00:00.000Z" badPayload guestUser rfl

/-- C2 counterexample: a record persisted through the create path with
category `"Wizardry"` — outside the closed enumeration — and an
unparseable date string. -/
theorem create_persists_out_of_enum_category :
    ∃ t ∈ (TransactionService.create db0 "tx2" "2025-05-05T00:00:00.000Z" badPayload).2.transactions,
        t.category = "Wizardry" ∧ "Wizardry" ∉ categoryEnum ∧ t.date = "not-a-date" := by decide

/-- C2 (amended): every record persisted through the create path has a
non-empty category and a non-empty date (absent or empty fields fall
back to `"Uncategorized"` and the current timestamp), but the category
is stored as given when non-empty, so it need not belong to the
enumeration, and the date string is not validated. -/
theorem create_category_date_nonempty (db : DB) (freshId nowIso : String)
    (payload : PartialTransaction) (u : User)
    (h : MockDatabase.getUser db currentUserId = some u) (hnow : nowIso ≠ "") :
    ∃ t, (TransactionService.create db freshId nowIso payload).1.data = some t ∧
      (TransactionService.create db freshId nowIso payload).2.transactions =
          db.transactions ++ [t] ∧
      t.category ≠ "" ∧ t.date ≠ "" ∧
      ((payload.category = none ∨ payload.category = some "") →
          t.category = "Uncategorized") ∧
      (∀ c, payload.category = some c → c ≠ "" → t.category = c) := by
  refine ⟨mkNewTx u freshId nowIso payload, ?_, ?_, ?_, ?_, ?_, ?_⟩
  · simp [TransactionService.create, h, MockDatabase.createTransaction]
  · simp [TransactionService.create, h, MockDatabase.createTransaction]
  · exact strOr_ne_empty _ (by decide)
  · exact strOr_ne_empty _ hnow
  · rintro (hc | hc) <;> simp [mkNewTx, hc, strOr]
  · intro c hc hcne
    simp [mkNewTx, hc, strOr, hcne]

/-- C2 witness: the amended statement evaluated on a concrete store and
payload. -/
theorem create_category_date_nonempty_witness :
    ∃ t, (TransactionService.create db0 "tx3" "2025-06-01T00:00:00.000Z" badPayload).1.data = some t ∧
      (TransactionService.create db0 "tx3" "2025-06-01T00:00:00.000Z" badPayload).2.transactions =
          db0.transactions ++ [t] ∧
      t.category ≠ "" ∧ t.date ≠ "" ∧
      ((badPayload.category = none ∨ badPayload.category = some "") →
          t.category = "Uncategorized") ∧
      (∀ c, badPayload.category = some c → c ≠ "" → t.category = c) :=
  create_category_date_nonempty db0 "tx3" "2025-06-01T00:00:00.000Z" badPayload
    guestUser rfl (by decide)

end FinZen
